import Mathlib

/-!
Shallow embedding of the ProjectHub server (`src/server/storage.ts`) and its
database schema (`@shared/schema`).  The PostgreSQL tables `users` and
`projects` are modelled as Lean lists of rows; the Drizzle queries issued by
`DatabaseStorage` are modelled by their SQL semantics over those lists
(`select ... where` = `find?`/`filter`, `insert` = append, `update ... where` =
`map` with a conditional rewrite, `delete ... where` = `filter`, `orderBy` =
sort by the key).  Timestamps are `Nat`; JWTs are modelled as a pair of the
signed claims and the signing secret, with decoding of a token string left
abstract (a `String → Option Token` parameter).  External library functions
(bcrypt compare/hash, zod's email regular expression, `Date.parse`) are
parameters of the routes that use them.
-/

namespace ProjectHub

/-- A row of the `users` table (`@shared/schema`, `users`):
id, name, email (unique), password digest, created/updated timestamps. -/
structure User where
  id : String
  name : String
  email : String
  password : String
  createdAt : Nat
  updatedAt : Nat
deriving DecidableEq, Repr

/-- A row of the `projects` table (`@shared/schema`, `projects`):
id, name, optional description, status string (default "pendente"),
start date, owning user id, created/updated timestamps. -/
structure Project where
  id : String
  name : String
  description : Option String
  status : String
  startDate : Nat
  userId : String
  createdAt : Nat
  updatedAt : Nat
deriving DecidableEq, Repr

/-- The database state: the two tables. -/
structure DB where
  users : List User
  projects : List Project
deriving DecidableEq, Repr

/-- The payload signed into a JWT by register/login:
`{ userId: user.id, email: user.email }`. -/
structure Claims where
  userId : String
  email : String
deriving DecidableEq, Repr

/-- A decoded JWT: the claims it carries and the secret it was signed with.
Expiry is not modelled (no claim concerns the 7-day TTL). -/
structure Token where
  claims : Claims
  secret : String
deriving DecidableEq, Repr

/-- The user object in response bodies: exactly `{ id, name, email }`
(`storage.ts` lines 156-160, 195-199, 216-220). -/
structure PublicUser where
  id : String
  name : String
  email : String
deriving DecidableEq, Repr

/-- Statistics returned by `getProjectStats`. -/
structure Stats where
  total : Nat
  pendente : Nat
  andamento : Nat
  concluido : Nat
deriving DecidableEq, Repr

/-- JSON response bodies produced by the routes in `storage.ts`. -/
inductive Body where
  | msg (m : String)
  | auth (token : Token) (user : PublicUser)
  | user (u : PublicUser)
  | project (p : Project)
  | projectList (ps : List Project)
  | stats (s : Stats)
  | empty
deriving DecidableEq, Repr

/-- An HTTP response: status code and body. -/
structure Response where
  status : Nat
  body : Body
deriving DecidableEq, Repr

/-- `const JWT_SECRET = process.env.JWT_SECRET || "your-secret-key"`
(`storage.ts` line 105).  JavaScript `||` falls through on the empty
string as well as on an unset variable. -/
def JWT_SECRET (env : Option String) : String :=
  match env with
  | none => "your-secret-key"
  | some s => if s = "" then "your-secret-key" else s

/-- `jwt.sign(claims, secret, ...)`: a token carrying the claims, signed
with the secret. -/
def jwtSign (c : Claims) (secret : String) : Token :=
  ⟨c, secret⟩

/-- `jwt.verify(tokenString, secret, cb)`: decode the token string (the
decoding of the wire format is the abstract parameter `decode`; a string
that is not a well-formed JWT decodes to `none`) and accept its claims
exactly when it was signed with `secret`. -/
def jwtVerify (decode : String → Option Token) (s : String) (secret : String) :
    Option Claims :=
  match decode s with
  | none => none
  | some t => if t.secret = secret then some t.claims else none

/-- JavaScript `String.prototype.split(' ')` on the character list: splits at
every single space, keeping empty pieces (so `""` yields `[""]` and
`"a "` yields `["a", ""]`). -/
def splitSpaces : List Char → List (List Char)
  | [] => [[]]
  | c :: rest =>
    let r := splitSpaces rest
    if c = ' ' then [] :: r
    else
      match r with
      | [] => [[c]]
      | w :: ws => (c :: w) :: ws

/-- `authHeader.split(' ')` as a string-level function. -/
def jsSplitSpace (s : String) : List String :=
  (splitSpaces s.data).map (fun cs => String.mk cs)

/-- `const token = authHeader && authHeader.split(' ')[1]` (`storage.ts`
lines 109-110), with JavaScript falsiness: a missing header, a header with
no second space-separated part, and an empty second part all yield no
token. -/
def extractToken (authHeader : Option String) : Option String :=
  match authHeader with
  | none => none
  | some h =>
    match (jsSplitSpace h)[1]? with
    | none => none
    | some "" => none
    | some t => some t

/-- The `authenticateToken` middleware (`storage.ts` lines 108-123): 401 when
no token is present, 403 when verification fails, otherwise run the handler
with the verified claims attached (`req.user = user; next()`). -/
def authenticateToken (decode : String → Option Token) (secret : String)
    (authHeader : Option String) (handler : Claims → Response) : Response :=
  match extractToken authHeader with
  | none => ⟨401, .msg "Token de acesso requerido"⟩
  | some t =>
    match jwtVerify decode t secret with
    | none => ⟨403, .msg "Token inválido"⟩
    | some claims => handler claims

/-- `DatabaseStorage.getUser`: `select from users where users.id = id`,
first row or none. -/
def getUser (db : DB) (id : String) : Option User :=
  db.users.find? (fun u => u.id == id)

/-- `DatabaseStorage.getUserByEmail`: `select from users where
users.email = email`, first row or none. -/
def getUserByEmail (db : DB) (email : String) : Option User :=
  db.users.find? (fun u => u.email == email)

/-- `DatabaseStorage.createUser`: `insert into users ... returning`.  The
schema declares `email: varchar(255).notNull().unique()`, so the database
rejects a row whose email duplicates an existing one; that rejection is the
`none` result. -/
def createUser (db : DB) (u : User) : Option (User × DB) :=
  if db.users.any (fun v => v.email == u.email) then none
  else some (u, { db with users := db.users ++ [u] })

/-- Ordering on project rows used by `orderBy(projects.createdAt)`:
ascending creation timestamp. -/
def createdLE (a b : Project) : Prop := a.createdAt ≤ b.createdAt

instance : DecidableRel createdLE := fun a b => Nat.decLe a.createdAt b.createdAt

instance : IsTotal Project createdLE := ⟨fun a b => Nat.le_total a.createdAt b.createdAt⟩

instance : IsTrans Project createdLE := ⟨fun _ _ _ h h2 => Nat.le_trans h h2⟩

/-- `DatabaseStorage.getProjects`: `select from projects where
projects.userId = userId orderBy projects.createdAt`. -/
def getProjects (db : DB) (userId : String) : List Project :=
  (db.projects.filter (fun p => p.userId == userId)).insertionSort createdLE

/-- `DatabaseStorage.getProject`: `select from projects where projects.id = id
and projects.userId = userId`, first row or none. -/
def getProject (db : DB) (id userId : String) : Option Project :=
  db.projects.find? (fun p => p.id == id && p.userId == userId)

/-- `DatabaseStorage.createProject`: `insert into projects ... returning`. -/
def createProject (db : DB) (p : Project) : Project × DB :=
  (p, { db with projects := db.projects ++ [p] })

/-- `Partial<InsertProject>`: the updatable fields of a project.
`insertProjectSchema` omits `id`, `createdAt`, `updatedAt` and `userId`, so
only name, description, status and startDate can ever be supplied. -/
structure ProjectUpdates where
  name : Option String
  description : Option (Option String)
  status : Option String
  startDate : Option Nat
deriving DecidableEq, Repr

/-- `set({ ...updates, updatedAt: new Date() })` applied to one row: each
supplied field replaces the old value, the update timestamp is always set
to the current time, and every other column is untouched. -/
def applyUpdates (u : ProjectUpdates) (now : Nat) (p : Project) : Project :=
  { p with
    name := u.name.getD p.name
    description := u.description.getD p.description
    status := u.status.getD p.status
    startDate := u.startDate.getD p.startDate
    updatedAt := now }

/-- `DatabaseStorage.updateProject`: `update projects set ... where
projects.id = id and projects.userId = userId returning`.  Every matching
row is rewritten; the first updated row (or none) is returned. -/
def updateProject (db : DB) (id userId : String) (u : ProjectUpdates)
    (now : Nat) : Option Project × DB :=
  match db.projects.find? (fun p => p.id == id && p.userId == userId) with
  | none => (none, db)
  | some p =>
    (some (applyUpdates u now p),
     { db with
       projects := db.projects.map (fun q =>
         if q.id == id && q.userId == userId then applyUpdates u now q else q) })

/-- `DatabaseStorage.deleteProject`: `delete from projects where
projects.id = id and projects.userId = userId`; the result is
`rowCount > 0`. -/
def deleteProject (db : DB) (id userId : String) : Bool × DB :=
  let remaining := db.projects.filter (fun p => !(p.id == id && p.userId == userId))
  (remaining.length < db.projects.length,
   { db with projects := remaining })

/-- `DatabaseStorage.getProjectStats`: select the owner's projects and count
the total and each of the three statuses. -/
def getProjectStats (db : DB) (userId : String) : Stats :=
  let userProjects := db.projects.filter (fun p => p.userId == userId)
  { total := userProjects.length
    pendente := (userProjects.filter (fun p => p.status == "pendente")).length
    andamento := (userProjects.filter (fun p => p.status == "andamento")).length
    concluido := (userProjects.filter (fun p => p.status == "concluido")).length }

/-- The `registerSchema` zod validation (`@shared/schema`).  Name and email
are plain strings there (no format or emptiness rule beyond the column
types, which no claim concerns); password and confirmPassword carry
`min(6)` messages and the refinement requires them equal.  The result is
`errors[0].message` on failure, `none` on success. -/
def registerValidate (password confirmPassword : String) : Option String :=
  if password.length < 6 then some "Senha deve ter pelo menos 6 caracteres"
  else if confirmPassword.length < 6 then some "Confirmação de senha obrigatória"
  else if password ≠ confirmPassword then some "Senhas não conferem"
  else none

/-- The `loginSchema` zod validation: `email()` shape (the zod regular
expression is the abstract parameter `emailOk`) then password `min(6)`. -/
def loginValidate (emailOk : String → Bool) (email password : String) :
    Option String :=
  if !emailOk email then some "Email inválido"
  else if password.length < 6 then some "Senha deve ter pelo menos 6 caracteres"
  else none

/-- `status: z.enum(["pendente", "andamento", "concluido"])`. -/
def statusValid (s : String) : Bool :=
  s == "pendente" || s == "andamento" || s == "concluido"

/-- The `projectSchema` zod validation, in field order (name and description
are plain strings; status must be one of the three enum values; startDate
must parse as a date — `Date.parse` is the abstract parameter
`dateParse`). -/
def projectValidate (status startDateStr : String)
    (dateParse : String → Option Nat) : Option String :=
  if !statusValid status then some "Status inválido"
  else
    match dateParse startDateStr with
    | none => some "Data inválida"
    | some _ => none

/-- `POST /api/auth/register` (`storage.ts` lines 127-168): validate, reject
a duplicate email with 400, hash the password, create the user, sign a
token, and answer 201 with the token and the public user fields.  `bhash`
is bcrypt hashing; `newId` and `now` are the database-generated id and
timestamp.  A unique-constraint violation on the insert (impossible after
the duplicate check in this sequential model, but kept faithful) is an
unexpected error: 500. -/
def registerRoute (db : DB) (name email password confirmPassword : String)
    (bhash : String → String) (newId : String) (now : Nat)
    (secret : String) : Response × DB :=
  match registerValidate password confirmPassword with
  | some m => (⟨400, .msg m⟩, db)
  | none =>
    match getUserByEmail db email with
    | some _ => (⟨400, .msg "Email já está em uso"⟩, db)
    | none =>
      let u : User := ⟨newId, name, email, bhash password, now, now⟩
      match createUser db u with
      | none => (⟨500, .msg "Erro interno do servidor"⟩, db)
      | some (created, db') =>
        (⟨201, .auth (jwtSign ⟨created.id, created.email⟩ secret)
                 ⟨created.id, created.name, created.email⟩⟩, db')

/-- `POST /api/auth/login` (`storage.ts` lines 170-207): validate, look the
user up by email (401 with a uniform message when absent), compare the
password against the stored digest with bcrypt (`bcompare`; 401 with the
same uniform message on mismatch), otherwise 200 with a fresh token and
the public user fields. -/
def loginRoute (db : DB) (email password : String) (emailOk : String → Bool)
    (bcompare : String → String → Bool) (secret : String) : Response :=
  match loginValidate emailOk email password with
  | some m => ⟨400, .msg m⟩
  | none =>
    match getUserByEmail db email with
    | none => ⟨401, .msg "Email ou senha inválidos"⟩
    | some u =>
      if !bcompare password u.password then ⟨401, .msg "Email ou senha inválidos"⟩
      else ⟨200, .auth (jwtSign ⟨u.id, u.email⟩ secret) ⟨u.id, u.name, u.email⟩⟩

/-- `GET /api/auth/user` handler body (`storage.ts` lines 209-224), given the
authenticated user id from the token claims. -/
def getUserRoute (db : DB) (userId : String) : Response :=
  match getUser db userId with
  | none => ⟨404, .msg "Usuário não encontrado"⟩
  | some u => ⟨200, .user ⟨u.id, u.name, u.email⟩⟩

/-- `GET /api/projects` handler body (`storage.ts` lines 227-234). -/
def listProjectsRoute (db : DB) (userId : String) : Response :=
  ⟨200, .projectList (getProjects db userId)⟩

/-- `GET /api/projects/stats` handler body (`storage.ts` lines 236-243). -/
def statsRoute (db : DB) (userId : String) : Response :=
  ⟨200, .stats (getProjectStats db userId)⟩

/-- `POST /api/projects` handler body (`storage.ts` lines 245-264): validate
the payload, then create the project with the owner id taken from the
token, the start date from `Date.parse`, and database-generated id and
timestamps. -/
def createProjectRoute (db : DB) (userId : String) (name : String)
    (descr : Option String) (status startDateStr : String)
    (dateParse : String → Option Nat) (newId : String) (now : Nat) :
    Response × DB :=
  match projectValidate status startDateStr dateParse with
  | some m => (⟨400, .msg m⟩, db)
  | none =>
    match dateParse startDateStr with
    | none => (⟨400, .msg "Data inválida"⟩, db)
    | some sd =>
      let (p, db') := createProject db ⟨newId, name, descr, status, sd, userId, now, now⟩
      (⟨201, .project p⟩, db')

/-- `GET /api/projects/:id` handler body (`storage.ts` lines 266-276). -/
def getProjectRoute (db : DB) (userId id : String) : Response :=
  match getProject db id userId with
  | none => ⟨404, .msg "Projeto não encontrado"⟩
  | some p => ⟨200, .project p⟩

/-- `PUT /api/projects/:id` handler body (`storage.ts` lines 278-300):
validate the full payload (the route always supplies all four fields to
the store), update by id and owner, 404 when no row matched. -/
def updateProjectRoute (db : DB) (userId id : String) (name : String)
    (descr : Option String) (status startDateStr : String)
    (dateParse : String → Option Nat) (now : Nat) : Response × DB :=
  match projectValidate status startDateStr dateParse with
  | some m => (⟨400, .msg m⟩, db)
  | none =>
    match dateParse startDateStr with
    | none => (⟨400, .msg "Data inválida"⟩, db)
    | some sd =>
      match updateProject db id userId ⟨some name, some descr, some status, some sd⟩ now with
      | (none, _) => (⟨404, .msg "Projeto não encontrado"⟩, db)
      | (some p, db') => (⟨200, .project p⟩, db')

/-- `DELETE /api/projects/:id` handler body (`storage.ts` lines 302-312):
204 with an empty body on success, 404 when nothing was deleted. -/
def deleteProjectRoute (db : DB) (userId id : String) : Response × DB :=
  match deleteProject db id userId with
  | (false, _) => (⟨404, .msg "Projeto não encontrado"⟩, db)
  | (true, db') => (⟨204, .empty⟩, db')

/-- Database states reachable through the API from an empty database, by any
sequence of register, create-project, update-project and delete-project
operations (the read-only operations do not change the state). -/
inductive Reachable : DB → Prop where
  | init : Reachable ⟨[], []⟩
  | register {db} (n e pw cpw : String) (bhash : String → String)
      (newId : String) (now : Nat) (secret : String) :
      Reachable db → Reachable (registerRoute db n e pw cpw bhash newId now secret).2
  | createP {db} (uid n : String) (d : Option String) (s sd : String)
      (dateParse : String → Option Nat) (newId : String) (now : Nat) :
      Reachable db → Reachable (createProjectRoute db uid n d s sd dateParse newId now).2
  | updateP {db} (uid id n : String) (d : Option String) (s sd : String)
      (dateParse : String → Option Nat) (now : Nat) :
      Reachable db → Reachable (updateProjectRoute db uid id n d s sd dateParse now).2
  | deleteP {db} (uid id : String) :
      Reachable db → Reachable (deleteProjectRoute db uid id).2

/-- Every project row carries one of the three enumerated statuses. -/
def StatusWF (db : DB) : Prop :=
  ∀ p ∈ db.projects, statusValid p.status = true

/-- C3: for every login request that passes schema validation, the
unknown-email failure and the failed-digest-verification failure produce
the same status code 401 and the identical response message, so the two
causes are observationally indistinguishable to the caller. -/
theorem login_uniform_failure (db : DB) (email password : String)
    (emailOk : String → Bool) (bcompare : String → String → Bool)
    (secret : String)
    (hv : loginValidate emailOk email password = none) :
    (getUserByEmail db email = none →
      loginRoute db email password emailOk bcompare secret =
        ⟨401, .msg "Email ou senha inválidos"⟩) ∧
    (∀ u, getUserByEmail db email = some u → bcompare password u.password = false →
      loginRoute db email password emailOk bcompare secret =
        ⟨401, .msg "Email ou senha inválidos"⟩) := by
  constructor
  · intro h
    simp [loginRoute, hv, h]
  · intro u hu hc
    simp [loginRoute, hv, hu, hc]

/-- C3 witness: a concrete store with one user; a login with an unknown email
and a login with the known email but a failing digest comparison both
answer 401 with the same message. -/
theorem login_uniform_failure_witness :
    loginRoute ⟨[⟨"u1", "Ana", "ana@x.com", "digest", 0, 0⟩], []⟩ "bob@x.com"
        "secret1" (fun _ => true) (fun _ _ => false) "s" =
      ⟨401, .msg "Email ou senha inválidos"⟩ ∧
    loginRoute ⟨[⟨"u1", "Ana", "ana@x.com", "digest", 0, 0⟩], []⟩ "ana@x.com"
        "secret1" (fun _ => true) (fun _ _ => false) "s" =
      ⟨401, .msg "Email ou senha inválidos"⟩ := by
  constructor
  · exact (login_uniform_failure _ _ _ _ _ _ (by decide)).1 (by decide)
  · exact (login_uniform_failure _ _ _ _ _ _ (by decide)).2
      ⟨"u1", "Ana", "ana@x.com", "digest", 0, 0⟩ (by decide) (by decide)

/-- C7: the request authenticator answers 401 before the handler when no
bearer token is present, 403 before the handler when the token fails
verification, and otherwise runs the handler with the verified claims;
the failure responses do not depend on the handler. -/
theorem authenticateToken_gate (decode : String → Option Token)
    (secret : String) (authHeader : Option String)
    (handler : Claims → Response) :
    (extractToken authHeader = none →
      authenticateToken decode secret authHeader handler =
        ⟨401, .msg "Token de acesso requerido"⟩) ∧
    (∀ t, extractToken authHeader = some t → jwtVerify decode t secret = none →
      authenticateToken decode secret authHeader handler =
        ⟨403, .msg "Token inválido"⟩) ∧
    (∀ t c, extractToken authHeader = some t → jwtVerify decode t secret = some c →
      authenticateToken decode secret authHeader handler = handler c) := by
  refine ⟨?_, ?_, ?_⟩
  · intro h
    simp [authenticateToken, h]
  · intro t ht hv
    simp [authenticateToken, ht, hv]
  · intro t c ht hv
    simp [authenticateToken, ht, hv]

/-- C7 witness: with a decoder that accepts exactly the string "good" as a
token signed with "s", a missing header gives 401, a bad token gives 403,
and a good token runs the handler on the decoded claims. -/
theorem authenticateToken_gate_witness :
    authenticateToken (fun s => if s = "good" then some ⟨⟨"u", "e"⟩, "s"⟩ else none)
        "s" none (fun _ => ⟨200, .empty⟩) = ⟨401, .msg "Token de acesso requerido"⟩ ∧
    authenticateToken (fun s => if s = "good" then some ⟨⟨"u", "e"⟩, "s"⟩ else none)
        "s" (some "Bearer bad") (fun _ => ⟨200, .empty⟩) = ⟨403, .msg "Token inválido"⟩ ∧
    authenticateToken (fun s => if s = "good" then some ⟨⟨"u", "e"⟩, "s"⟩ else none)
        "s" (some "Bearer good") (fun c => ⟨200, .user ⟨c.userId, "n", c.email⟩⟩) =
      ⟨200, .user ⟨"u", "n", "e"⟩⟩ := by
  refine ⟨?_, ?_, ?_⟩
  · exact (authenticateToken_gate _ _ _ _).1 (by decide)
  · exact (authenticateToken_gate _ _ _ _).2.1 "bad" (by decide) (by decide)
  · exact (authenticateToken_gate _ _ _ _).2.2 "good" ⟨"u", "e"⟩ (by decide) (by decide)

/-- C10: with `JWT_SECRET` unset in the environment, the configured secret is
the hardcoded "your-secret-key"; register and login sign their tokens with
that string, and the request authenticator accepts any token signed with
it, running the handler on its claims. -/
theorem default_secret :
    JWT_SECRET none = "your-secret-key" ∧
    (∀ db n e pw cpw bhash newId now r db2,
      registerRoute db n e pw cpw bhash newId now (JWT_SECRET none) = (r, db2) →
      ∀ t pu, r = ⟨201, .auth t pu⟩ → t.secret = "your-secret-key") ∧
    (∀ db e pw emailOk bcompare t pu,
      loginRoute db e pw emailOk bcompare (JWT_SECRET none) = ⟨200, .auth t pu⟩ →
      t.secret = "your-secret-key") ∧
    (∀ decode h tokStr c handler,
      extractToken h = some tokStr →
      decode tokStr = some ⟨c, "your-secret-key"⟩ →
      authenticateToken decode (JWT_SECRET none) h handler = handler c) := by
  refine ⟨rfl, ?_, ?_, ?_⟩
  · intro db n e pw cpw bhash newId now r db2 h t pu hr
    subst hr
    cases hval : registerValidate pw cpw with
    | some m => simp [registerRoute, hval] at h
    | none =>
      cases hue : getUserByEmail db e with
      | some u0 => simp [registerRoute, hval, hue] at h
      | none =>
        cases hcu : createUser db ⟨newId, n, e, bhash pw, now, now⟩ with
        | none => simp [registerRoute, hval, hue, hcu] at h
        | some ud =>
          simp [registerRoute, hval, hue, hcu, jwtSign] at h
          obtain ⟨⟨ht, -⟩, -⟩ := h
          simp [← ht, JWT_SECRET]
  · intro db e pw emailOk bcompare t pu h
    cases hval : loginValidate emailOk e pw with
    | some m => simp [loginRoute, hval] at h
    | none =>
      cases hue : getUserByEmail db e with
      | none => simp [loginRoute, hval, hue] at h
      | some u0 =>
        cases hb : bcompare pw u0.password with
        | false => simp [loginRoute, hval, hue, hb] at h
        | true =>
          simp [loginRoute, hval, hue, hb, jwtSign] at h
          obtain ⟨ht, -⟩ := h
          simp [← ht, JWT_SECRET]
  · intro decode h tokStr c handler hext hdec
    simp [authenticateToken, hext, jwtVerify, hdec, JWT_SECRET]

/-- C10 witness: a token whose decoding carries the secret "your-secret-key"
is accepted by the authenticator configured with an unset environment
secret, and the handler runs on its claims. -/
theorem default_secret_witness :
    authenticateToken
        (fun s => if s = "tok" then some ⟨⟨"u", "e"⟩, "your-secret-key"⟩ else none)
        (JWT_SECRET none) (some "Bearer tok")
        (fun c => ⟨200, .user ⟨c.userId, "n", c.email⟩⟩) =
      ⟨200, .user ⟨"u", "n", "e"⟩⟩ :=
  default_secret.2.2.2 _ (some "Bearer tok") "tok" ⟨"u", "e"⟩ _ (by decide) (by decide)

/-- C9: every successful register, login and get-current-user response
carries the user as exactly the triple (id, name, email); the stored
password digest is not part of any of these response bodies. -/
theorem public_user_fields :
    (∀ db n e pw cpw bhash newId now secret r db2,
      registerRoute db n e pw cpw bhash newId now secret = (r, db2) → r.status = 201 →
      r.body = .auth (jwtSign ⟨newId, e⟩ secret) ⟨newId, n, e⟩) ∧
    (∀ db e pw emailOk bcompare secret r,
      loginRoute db e pw emailOk bcompare secret = r → r.status = 200 →
      ∃ u, getUserByEmail db e = some u ∧
        r.body = .auth (jwtSign ⟨u.id, u.email⟩ secret) ⟨u.id, u.name, u.email⟩) ∧
    (∀ db uid r, getUserRoute db uid = r → r.status = 200 →
      ∃ u, getUser db uid = some u ∧ r.body = .user ⟨u.id, u.name, u.email⟩) := by
  refine ⟨?_, ?_, ?_⟩
  · intro db n e pw cpw bhash newId now secret r db2 h hs
    cases hval : registerValidate pw cpw with
    | some m =>
      simp [registerRoute, hval] at h
      simp [← h.1] at hs
    | none =>
      cases hue : getUserByEmail db e with
      | some u0 =>
        simp [registerRoute, hval, hue] at h
        simp [← h.1] at hs
      | none =>
        cases hcu : createUser db ⟨newId, n, e, bhash pw, now, now⟩ with
        | none =>
          simp [registerRoute, hval, hue, hcu] at h
          simp [← h.1] at hs
        | some ud =>
          have hud : ud = (⟨newId, n, e, bhash pw, now, now⟩,
              { db with users := db.users ++ [⟨newId, n, e, bhash pw, now, now⟩] }) :=
            (by simpa [createUser] using hcu.symm :
              (∀ x ∈ db.users, ¬x.email = e) ∧ _).2
          subst hud
          simp [registerRoute, hval, hue, hcu] at h
          simp [← h.1]
  · intro db e pw emailOk bcompare secret r h hs
    cases hval : loginValidate emailOk e pw with
    | some m =>
      simp [loginRoute, hval] at h
      simp [← h] at hs
    | none =>
      cases hue : getUserByEmail db e with
      | none =>
        simp [loginRoute, hval, hue] at h
        simp [← h] at hs
      | some u0 =>
        cases hb : bcompare pw u0.password with
        | false =>
          simp [loginRoute, hval, hue, hb] at h
          simp [← h] at hs
        | true =>
          refine ⟨u0, rfl, ?_⟩
          simp [loginRoute, hval, hue, hb] at h
          simp [← h]
  · intro db uid r h hs
    cases hu : getUser db uid with
    | none =>
      simp [getUserRoute, hu] at h
      simp [← h] at hs
    | some u0 =>
      refine ⟨u0, rfl, ?_⟩
      simp [getUserRoute, hu] at h
      simp [← h]

/-- C9 witness: with one stored user, the get-current-user success response
body is exactly the public triple of that user. -/
theorem public_user_fields_witness :
    ∃ u, getUser ⟨[⟨"u1", "Ana", "ana@x.com", "digest", 0, 0⟩], []⟩ "u1" = some u ∧
      (getUserRoute ⟨[⟨"u1", "Ana", "ana@x.com", "digest", 0, 0⟩], []⟩ "u1").body =
        .user ⟨u.id, u.name, u.email⟩ :=
  public_user_fields.2.2 ⟨[⟨"u1", "Ana", "ana@x.com", "digest", 0, 0⟩], []⟩ "u1" _
    rfl (by decide)

/-- C5: updating an existing project owned by the requester replaces exactly
the supplied fields and stamps the update timestamp with the current time,
leaving the project id, owner id, creation timestamp and every unsupplied
field unchanged; when the id/owner pair matches no row the store returns
none and the database is unmodified; rows not matched by the update are
untouched. -/
theorem updateProject_frame (db : DB) (id uid : String) (u : ProjectUpdates)
    (now : Nat) :
    ((∀ p ∈ db.projects, ¬(p.id = id ∧ p.userId = uid)) →
      updateProject db id uid u now = (none, db)) ∧
    (∀ r, (updateProject db id uid u now).1 = some r →
      ∃ p ∈ db.projects, p.id = id ∧ p.userId = uid ∧
        r = applyUpdates u now p ∧ r.id = p.id ∧ r.userId = p.userId ∧
        r.createdAt = p.createdAt ∧ r.updatedAt = now ∧
        r.name = u.name.getD p.name ∧
        r.description = u.description.getD p.description ∧
        r.status = u.status.getD p.status ∧
        r.startDate = u.startDate.getD p.startDate) ∧
    (∀ q ∈ db.projects, ¬(q.id = id ∧ q.userId = uid) →
      q ∈ (updateProject db id uid u now).2.projects) := by
  refine ⟨?_, ?_, ?_⟩
  · intro h
    have hfind : db.projects.find? (fun p => p.id == id && p.userId == uid) = none := by
      rw [List.find?_eq_none]
      intro x hx
      simpa using h x hx
    simp [updateProject, hfind]
  · intro r hr
    cases hfind : db.projects.find? (fun p => p.id == id && p.userId == uid) with
    | none => simp [updateProject, hfind] at hr
    | some p =>
      have hmem := List.mem_of_find?_eq_some hfind
      have hpred := List.find?_some hfind
      simp only [Bool.and_eq_true, beq_iff_eq] at hpred
      simp [updateProject, hfind] at hr
      exact ⟨p, hmem, hpred.1, hpred.2, hr.symm, by simp [← hr, applyUpdates],
        by simp [← hr, applyUpdates], by simp [← hr, applyUpdates],
        by simp [← hr, applyUpdates], by simp [← hr, applyUpdates],
        by simp [← hr, applyUpdates], by simp [← hr, applyUpdates],
        by simp [← hr, applyUpdates]⟩
  · intro q hq hnq
    cases hfind : db.projects.find? (fun p => p.id == id && p.userId == uid) with
    | none => simpa [updateProject, hfind] using hq
    | some p =>
      simp only [updateProject, hfind]
      refine List.mem_map.mpr ⟨q, hq, ?_⟩
      have : (q.id == id && q.userId == uid) = false := by
        simpa using hnq
      simp [this]

/-- C5 witness: with a single stored project, an update addressed to a
different project id matches no row, returns none and leaves the database
unchanged. -/
theorem updateProject_frame_witness :
    updateProject ⟨[], [⟨"p1", "Site", none, "pendente", 5, "u1", 1, 1⟩]⟩ "p2" "u1"
        ⟨some "Novo", none, some "andamento", none⟩ 9 =
      (none, ⟨[], [⟨"p1", "Site", none, "pendente", 5, "u1", 1, 1⟩]⟩) :=
  (updateProject_frame _ _ _ _ _).1 (by decide)

/-- C6: deleting an owned project twice: the first call answers 204 with an
empty body and removes the project; the second call on the same id answers
404, the project being absent from the store after the first call. -/
theorem delete_twice (db : DB) (uid id : String) (p : Project)
    (hp : p ∈ db.projects) (hid : p.id = id) (huid : p.userId = uid) :
    ∃ db1, deleteProjectRoute db uid id = (⟨204, .empty⟩, db1) ∧
      p ∉ db1.projects ∧ getProject db1 id uid = none ∧
      deleteProjectRoute db1 uid id = (⟨404, .msg "Projeto não encontrado"⟩, db1) := by
  have hlt : (db.projects.filter (fun q => !(q.id == id && q.userId == uid))).length
      < db.projects.length :=
    List.length_filter_lt_length_iff_exists.mpr ⟨p, hp, by simp [hid, huid]⟩
  have h1 : deleteProject db id uid =
      (true, ⟨db.users, db.projects.filter (fun q => !(q.id == id && q.userId == uid))⟩) := by
    dsimp only [deleteProject]
    rw [decide_eq_true hlt]
  have hself : (db.projects.filter (fun q => !(q.id == id && q.userId == uid))).filter
      (fun q => !(q.id == id && q.userId == uid)) =
      db.projects.filter (fun q => !(q.id == id && q.userId == uid)) :=
    List.filter_eq_self.mpr (fun a ha => (List.mem_filter.mp ha).2)
  have h2 : deleteProject
      ⟨db.users, db.projects.filter (fun q => !(q.id == id && q.userId == uid))⟩ id uid =
      (false, ⟨db.users, db.projects.filter (fun q => !(q.id == id && q.userId == uid))⟩) := by
    dsimp only [deleteProject]
    rw [hself, decide_eq_false (lt_irrefl _)]
  refine ⟨⟨db.users, db.projects.filter (fun q => !(q.id == id && q.userId == uid))⟩,
    ?_, ?_, ?_, ?_⟩
  · rw [deleteProjectRoute, h1]
  · simp [List.mem_filter, hid, huid]
  · rw [getProject, List.find?_eq_none]
    intro x hx
    have hfx := (List.mem_filter.mp hx).2
    simp only [Bool.not_eq_true'] at hfx
    simp [hfx]
  · rw [deleteProjectRoute, h2]

/-- C6 witness: a concrete store with one project; the first delete answers
204 and removes it, the second answers 404. -/
theorem delete_twice_witness :
    ∃ db1, deleteProjectRoute ⟨[], [⟨"p1", "Site", none, "pendente", 5, "u1", 1, 1⟩]⟩
        "u1" "p1" = (⟨204, .empty⟩, db1) ∧
      (⟨"p1", "Site", none, "pendente", 5, "u1", 1, 1⟩ : Project) ∉ db1.projects ∧
      getProject db1 "p1" "u1" = none ∧
      deleteProjectRoute db1 "u1" "p1" = (⟨404, .msg "Projeto não encontrado"⟩, db1) :=
  delete_twice _ "u1" "p1" ⟨"p1", "Site", none, "pendente", 5, "u1", 1, 1⟩
    (by decide) rfl rfl

/-- C8: list-by-owner returns exactly the stored projects whose owner id is
the given owner — a permutation of the owner-filtered table, membership
characterised — and the result is sorted by creation timestamp
ascending. -/
theorem getProjects_ordered (db : DB) (uid : String) :
    (getProjects db uid).Perm (db.projects.filter (fun p => p.userId == uid)) ∧
    (∀ p, p ∈ getProjects db uid ↔ p ∈ db.projects ∧ p.userId = uid) ∧
    (getProjects db uid).Sorted createdLE := by
  refine ⟨List.perm_insertionSort _ _, ?_, List.sorted_insertionSort _ _⟩
  intro p
  rw [getProjects, List.mem_insertionSort, List.mem_filter]
  simp

/-- C1: for a project owned by user `a` and any distinct user `b`, get,
update and delete invoked with `b`'s identity on the project's id return
the not-found outcome (empty result, `(none, db)`, `(false, db)`, and 404
at the route level) and leave the database unchanged, and the project
never appears in list-by-owner for `b`. -/
theorem ownership_isolation (db : DB) (p : Project) (a b : String)
    (_hp : p ∈ db.projects) (howner : p.userId = a) (hab : b ≠ a)
    (huniq : ∀ q ∈ db.projects, q.id = p.id → q.userId = a) :
    getProject db p.id b = none ∧
    (∀ u now, updateProject db p.id b u now = (none, db)) ∧
    deleteProject db p.id b = (false, db) ∧
    p ∉ getProjects db b ∧
    getProjectRoute db b p.id = ⟨404, .msg "Projeto não encontrado"⟩ ∧
    deleteProjectRoute db b p.id = (⟨404, .msg "Projeto não encontrado"⟩, db) := by
  have hnomatch : ∀ q ∈ db.projects, ¬(q.id = p.id ∧ q.userId = b) := by
    rintro q hq ⟨h1, h2⟩
    exact hab (h2 ▸ huniq q hq h1)
  have hfind : db.projects.find? (fun q => q.id == p.id && q.userId == b) = none := by
    rw [List.find?_eq_none]
    intro x hx
    simp only [Bool.and_eq_true, beq_iff_eq]
    exact hnomatch x hx
  have hfilter : db.projects.filter (fun q => !(q.id == p.id && q.userId == b)) =
      db.projects := by
    refine List.filter_eq_self.mpr (fun x hx => ?_)
    simp only [Bool.not_eq_true', Bool.and_eq_false_iff, beq_eq_false_iff_ne]
    by_cases h : x.id = p.id
    · exact Or.inr (fun h2 => hnomatch x hx ⟨h, h2⟩)
    · exact Or.inl h
  have hdel : deleteProject db p.id b = (false, db) := by
    dsimp only [deleteProject]
    rw [hfilter, decide_eq_false (lt_irrefl _)]
  refine ⟨hfind, ?_, hdel, ?_, ?_, ?_⟩
  · intro u now
    simp [updateProject, hfind]
  · rw [getProjects, List.mem_insertionSort, List.mem_filter]
    rintro ⟨-, hb⟩
    rw [beq_iff_eq, howner] at hb
    exact hab hb.symm
  · simp [getProjectRoute, getProject, hfind]
  · rw [deleteProjectRoute, hdel]

/-- C1 witness: a concrete store with one project per user; user "b" cannot
observe or mutate user "a"'s project through any of the four operations. -/
theorem ownership_isolation_witness :
    getProject ⟨[], [⟨"p1", "Site", none, "pendente", 5, "a", 1, 1⟩,
        ⟨"p2", "Loja", none, "andamento", 6, "b", 2, 2⟩]⟩ "p1" "b" = none ∧
    (∀ u now, updateProject ⟨[], [⟨"p1", "Site", none, "pendente", 5, "a", 1, 1⟩,
        ⟨"p2", "Loja", none, "andamento", 6, "b", 2, 2⟩]⟩ "p1" "b" u now =
      (none, ⟨[], [⟨"p1", "Site", none, "pendente", 5, "a", 1, 1⟩,
        ⟨"p2", "Loja", none, "andamento", 6, "b", 2, 2⟩]⟩)) ∧
    deleteProject ⟨[], [⟨"p1", "Site", none, "pendente", 5, "a", 1, 1⟩,
        ⟨"p2", "Loja", none, "andamento", 6, "b", 2, 2⟩]⟩ "p1" "b" =
      (false, ⟨[], [⟨"p1", "Site", none, "pendente", 5, "a", 1, 1⟩,
        ⟨"p2", "Loja", none, "andamento", 6, "b", 2, 2⟩]⟩) ∧
    (⟨"p1", "Site", none, "pendente", 5, "a", 1, 1⟩ : Project) ∉
      getProjects ⟨[], [⟨"p1", "Site", none, "pendente", 5, "a", 1, 1⟩,
        ⟨"p2", "Loja", none, "andamento", 6, "b", 2, 2⟩]⟩ "b" ∧
    getProjectRoute ⟨[], [⟨"p1", "Site", none, "pendente", 5, "a", 1, 1⟩,
        ⟨"p2", "Loja", none, "andamento", 6, "b", 2, 2⟩]⟩ "b" "p1" =
      ⟨404, .msg "Projeto não encontrado"⟩ ∧
    deleteProjectRoute ⟨[], [⟨"p1", "Site", none, "pendente", 5, "a", 1, 1⟩,
        ⟨"p2", "Loja", none, "andamento", 6, "b", 2, 2⟩]⟩ "b" "p1" =
      (⟨404, .msg "Projeto não encontrado"⟩, ⟨[], [⟨"p1", "Site", none, "pendente", 5, "a", 1, 1⟩,
        ⟨"p2", "Loja", none, "andamento", 6, "b", 2, 2⟩]⟩) :=
  ownership_isolation _ ⟨"p1", "Site", none, "pendente", 5, "a", 1, 1⟩ "a" "b"
    (by decide) rfl (by decide) (by decide)

/-- C4: if a registration succeeds, a second registration with the same email
(and a payload passing schema validation) fails with 400 and the
duplicate-email message, leaving the user store unchanged; and the store
itself rejects insertion of a second row with a duplicate email. -/
theorem register_duplicate_conflict :
    (∀ db n e pw cpw bhash newId now secret r db2 n2 pw2 cpw2 bhash2 id2 now2 s2,
      registerRoute db n e pw cpw bhash newId now secret = (r, db2) → r.status = 201 →
      registerValidate pw2 cpw2 = none →
      registerRoute db2 n2 e pw2 cpw2 bhash2 id2 now2 s2 =
        (⟨400, .msg "Email já está em uso"⟩, db2)) ∧
    (∀ db u, (∃ v ∈ db.users, v.email = u.email) → createUser db u = none) := by
  constructor
  · intro db n e pw cpw bhash newId now secret r db2 n2 pw2 cpw2 bhash2 id2 now2 s2 h hs hv2
    have hex : ∃ v ∈ db2.users, v.email = e := by
      cases hval : registerValidate pw cpw with
      | some m =>
        simp [registerRoute, hval] at h
        simp [← h.1] at hs
      | none =>
        cases hue : getUserByEmail db e with
        | some u0 =>
          simp [registerRoute, hval, hue] at h
          simp [← h.1] at hs
        | none =>
          cases hcu : createUser db ⟨newId, n, e, bhash pw, now, now⟩ with
          | none =>
            simp [registerRoute, hval, hue, hcu] at h
            simp [← h.1] at hs
          | some ud =>
            have hud : ud = (⟨newId, n, e, bhash pw, now, now⟩,
                { db with users := db.users ++ [⟨newId, n, e, bhash pw, now, now⟩] }) :=
              (by simpa [createUser] using hcu.symm :
                (∀ x ∈ db.users, ¬x.email = e) ∧ _).2
            subst hud
            simp [registerRoute, hval, hue, hcu] at h
            exact ⟨⟨newId, n, e, bhash pw, now, now⟩, by simp [← h.2], rfl⟩
    have hsome : (db2.users.find? (fun u => u.email == e)).isSome = true :=
      List.find?_isSome.mpr (by
        obtain ⟨w, hw, hwe⟩ := hex
        exact ⟨w, hw, by simp [hwe]⟩)
    obtain ⟨v, hv⟩ := Option.isSome_iff_exists.mp hsome
    simp [registerRoute, hv2, getUserByEmail, hv]
  · intro db u ⟨v, hv, hve⟩
    have : db.users.any (fun w => w.email == u.email) = true :=
      List.any_eq_true.mpr ⟨v, hv, by simp [hve]⟩
    simp [createUser, this]

/-- C4 witness: after "ana@x.com" has registered, a second registration with
the same email and a valid payload answers 400 with the duplicate-email
message and leaves the store unchanged. -/
theorem register_duplicate_conflict_witness :
    registerRoute ⟨[⟨"u1", "Ana", "ana@x.com", "d", 0, 0⟩], []⟩ "Bob" "ana@x.com"
        "outra1" "outra1" (fun _ => "d2") "u2" 1 "s" =
      (⟨400, .msg "Email já está em uso"⟩, ⟨[⟨"u1", "Ana", "ana@x.com", "d", 0, 0⟩], []⟩) :=
  register_duplicate_conflict.1 ⟨[], []⟩ "Ana" "ana@x.com" "secret1" "secret1"
    (fun _ => "d") "u1" 0 "s"
    ⟨201, .auth ⟨⟨"u1", "ana@x.com"⟩, "s"⟩ ⟨"u1", "Ana", "ana@x.com"⟩⟩
    ⟨[⟨"u1", "Ana", "ana@x.com", "d", 0, 0⟩], []⟩
    "Bob" "outra1" "outra1" (fun _ => "d2") "u2" 1 "s"
    (by decide) (by decide) (by decide)

/-- Registration never touches the `projects` table. -/
theorem projects_registerRoute (db : DB) (n e pw cpw : String)
    (bhash : String → String) (newId : String) (now : Nat) (secret : String) :
    (registerRoute db n e pw cpw bhash newId now secret).2.projects = db.projects := by
  cases hval : registerValidate pw cpw with
  | some m => simp [registerRoute, hval]
  | none =>
    cases hue : getUserByEmail db e with
    | some u0 => simp [registerRoute, hval, hue]
    | none =>
      cases hcu : createUser db ⟨newId, n, e, bhash pw, now, now⟩ with
      | none => simp [registerRoute, hval, hue, hcu]
      | some ud =>
        have hud : ud = (⟨newId, n, e, bhash pw, now, now⟩,
            { db with users := db.users ++ [⟨newId, n, e, bhash pw, now, now⟩] }) :=
          (by simpa [createUser] using hcu.symm :
            (∀ x ∈ db.users, ¬x.email = e) ∧ _).2
        subst hud
        simp [registerRoute, hval, hue, hcu]

/-- A payload passing `projectSchema` validation has one of the three
enumerated statuses. -/
theorem statusValid_of_projectValidate {s sd : String} {dp : String → Option Nat}
    (hv : projectValidate s sd dp = none) : statusValid s = true := by
  by_contra hns
  rw [Bool.not_eq_true] at hns
  simp [projectValidate, hns] at hv

/-- Creating a project through the route preserves status well-formedness. -/
theorem statusWF_createProjectRoute (db : DB) (uid n : String) (d : Option String)
    (s sd : String) (dp : String → Option Nat) (newId : String) (now : Nat)
    (h : StatusWF db) : StatusWF (createProjectRoute db uid n d s sd dp newId now).2 := by
  cases hv : projectValidate s sd dp with
  | some m => simpa [createProjectRoute, hv] using h
  | none =>
    cases hd : dp sd with
    | none => simpa [createProjectRoute, hv, hd] using h
    | some t =>
      intro p hp
      simp [createProjectRoute, hv, hd, createProject] at hp
      rcases hp with hp | hp
      · exact h p hp
      · subst hp
        exact statusValid_of_projectValidate hv

/-- Updating a project through the route preserves status well-formedness. -/
theorem statusWF_updateProjectRoute (db : DB) (uid id n : String) (d : Option String)
    (s sd : String) (dp : String → Option Nat) (now : Nat)
    (h : StatusWF db) : StatusWF (updateProjectRoute db uid id n d s sd dp now).2 := by
  cases hv : projectValidate s sd dp with
  | some m => simpa [updateProjectRoute, hv] using h
  | none =>
    cases hd : dp sd with
    | none => simpa [updateProjectRoute, hv, hd] using h
    | some t =>
      cases hfind : db.projects.find? (fun p => p.id == id && p.userId == uid) with
      | none => simpa [updateProjectRoute, hv, hd, updateProject, hfind] using h
      | some p0 =>
        intro p hp
        simp [updateProjectRoute, hv, hd, updateProject, hfind] at hp
        obtain ⟨q, hq, hfq⟩ := hp
        by_cases hc : q.id = id ∧ q.userId = uid
        · rw [if_pos hc] at hfq
          rw [← hfq]
          simpa [applyUpdates] using statusValid_of_projectValidate hv
        · rw [if_neg hc] at hfq
          rw [← hfq]
          exact h q hq

/-- Deleting a project through the route preserves status well-formedness. -/
theorem statusWF_deleteProjectRoute (db : DB) (uid id : String)
    (h : StatusWF db) : StatusWF (deleteProjectRoute db uid id).2 := by
  intro p hp
  rcases hb : deleteProject db id uid with ⟨b, db'⟩
  have hdb' : db' = ⟨db.users, db.projects.filter (fun q => !(q.id == id && q.userId == uid))⟩ := by
    have h2 := congrArg Prod.snd hb
    dsimp only [deleteProject] at h2
    exact h2.symm
  cases b with
  | false =>
    simp only [deleteProjectRoute, hb] at hp
    exact h p hp
  | true =>
    simp only [deleteProjectRoute, hb] at hp
    subst hdb'
    exact h p (List.mem_filter.mp hp).1

/-- Every database reachable through the API has only well-formed project
statuses. -/
theorem statusWF_reachable {db : DB} (h : Reachable db) : StatusWF db := by
  induction h with
  | init => intro p hp; cases hp
  | register n e pw cpw bhash newId now secret _ ih =>
    intro p hp
    rw [projects_registerRoute] at hp
    exact ih p hp
  | createP uid n d s sd dp newId now _ ih =>
    exact statusWF_createProjectRoute _ uid n d s sd dp newId now ih
  | updateP uid id n d s sd dp now _ ih =>
    exact statusWF_updateProjectRoute _ uid id n d s sd dp now ih
  | deleteP uid id _ ih =>
    exact statusWF_deleteProjectRoute _ uid id ih

/-- A list of projects whose statuses are all among the three enumerated
values is partitioned by the three per-status filters. -/
theorem length_eq_status_counts (l : List Project)
    (h : ∀ p ∈ l, statusValid p.status = true) :
    l.length = (l.filter (fun p => p.status == "pendente")).length +
      (l.filter (fun p => p.status == "andamento")).length +
      (l.filter (fun p => p.status == "concluido")).length := by
  induction l with
  | nil => rfl
  | cons p t ih =>
    have hp := h p (List.mem_cons_self _ _)
    have ht := ih (fun q hq => h q (List.mem_cons_of_mem _ hq))
    simp only [statusValid, Bool.or_eq_true, beq_iff_eq] at hp
    rcases hp with (h1 | h1) | h1 <;>
      simp [List.filter_cons, h1, ht] <;> omega

/-- C2: in every database state reachable through the API, the statistics
total equals the sum of the three per-status counts, for every owner. -/
theorem stats_total_eq_sum (db : DB) (hdb : Reachable db) (uid : String) :
    (getProjectStats db uid).total =
      (getProjectStats db uid).pendente + (getProjectStats db uid).andamento +
        (getProjectStats db uid).concluido := by
  have hwf := statusWF_reachable hdb
  have hsub : ∀ p ∈ db.projects.filter (fun p => p.userId == uid),
      statusValid p.status = true :=
    fun p hp => hwf p (List.mem_filter.mp hp).1
  simpa [getProjectStats] using length_eq_status_counts _ hsub

/-- C2 witness: the database reached by creating one pending project from the
empty state has stats total 1 = 1 + 0 + 0. -/
theorem stats_total_eq_sum_witness :
    (getProjectStats (createProjectRoute ⟨[], []⟩ "u1" "Site" none "pendente"
        "2025-01-01" (fun _ => some 100) "p1" 0).2 "u1").total =
      (getProjectStats (createProjectRoute ⟨[], []⟩ "u1" "Site" none "pendente"
        "2025-01-01" (fun _ => some 100) "p1" 0).2 "u1").pendente +
      (getProjectStats (createProjectRoute ⟨[], []⟩ "u1" "Site" none "pendente"
        "2025-01-01" (fun _ => some 100) "p1" 0).2 "u1").andamento +
      (getProjectStats (createProjectRoute ⟨[], []⟩ "u1" "Site" none "pendente"
        "2025-01-01" (fun _ => some 100) "p1" 0).2 "u1").concluido :=
  stats_total_eq_sum _ (Reachable.createP "u1" "Site" none "pendente" "2025-01-01"
    (fun _ => some 100) "p1" 0 Reachable.init) "u1"

end ProjectHub
